import Mathlib

/-!
Shallow embedding of the Deadline Obsidian plugin (src/main.js, the
"Deadline v1.1.0" variant of `SimpleWorkingView`, lines 856-1473 of the
concatenated source file, which the claims cite).  Three independent
components are modelled: the calendar cursor and month grid, the pomodoro
timer state machine, and the in-memory task list, plus the daily-file
handler `createDailyFile`.  Wall-clock time (`Date.now()`, millisecond
integers) is passed explicitly; the host DOM, vault and audio collaborators
are parameters of the functions that call them.
-/

/- ───────────────────────── Calendar: dates ───────────────────────── -/

/-- Gregorian leap-year test, as used by the ECMAScript Date calendar that
`new Date(year, month, day)` computes with. -/
def isLeap (y : Int) : Bool :=
  (y % 4 == 0 && y % 100 != 0) || y % 400 == 0

/-- Number of days of 0-based month `m` of year `y`; models the source's
`new Date(year, month + 1, 0).getDate()` (src/main.js lines 941-942). -/
def daysInMonth (y m : Int) : Int :=
  if m = 1 then (if isLeap y then 29 else 28)
  else if m = 3 ∨ m = 5 ∨ m = 8 ∨ m = 10 then 30
  else 31

/-- Days since 1970-01-01 of the civil date `(y, m, d)` with 1-based month
`m`; standard days-from-civil algorithm over the proleptic Gregorian
calendar, which is what the ECMAScript Date type uses.  Division is `Int`
Euclidean division, which agrees with floor division because every divisor
below is positive. -/
def daysFromCivil (y m d : Int) : Int :=
  let y1 := if m ≤ 2 then y - 1 else y
  let era := y1 / 400
  let yoe := y1 - era * 400
  let mp := if 2 < m then m - 3 else m + 9
  let doy := (153 * mp + 2) / 5 + d - 1
  let doe := yoe * 365 + yoe / 4 - yoe / 100 + doy
  era * 146097 + doe - 719468

/-- Day of week of `(y, m, d)` with 0-based month `m`, numbered as JS
`Date.prototype.getDay`: 0 = Sunday .. 6 = Saturday (1970-01-01 was a
Thursday, hence the offset 4). -/
def dayOfWeek (y m d : Int) : Int :=
  (daysFromCivil y (m + 1) d + 4) % 7

/-- Calendar cursor: the mutable `this.currentDate` JS `Date`, reduced to
the calendar fields the plugin reads and writes (year, 0-based month,
day of month).  Hours and below are never touched by the plugin. -/
structure JSDate where
  year : Int
  month : Int
  day : Int
deriving DecidableEq, Repr

/-- ECMAScript `Date.prototype.setMonth t` on a valid date: the target year
and month are `year + ⌊t/12⌋` and `t mod 12`, and the kept day-of-month is
rolled into the following month when it exceeds the target month's length.
Faithful for the day values reachable here (1 ≤ day ≤ 31): the overflow is
then at most 3 days, so at most one month of rollover occurs. -/
def setMonth (dt : JSDate) (t : Int) : JSDate :=
  let y := dt.year + t / 12
  let m := t % 12
  if dt.day ≤ daysInMonth y m then ⟨y, m, dt.day⟩
  else ⟨if m = 11 then y + 1 else y, if m = 11 then 0 else m + 1, dt.day - daysInMonth y m⟩

/-- Month navigation (src/main.js lines 980-992): the prev/next-month click
handlers run `this.currentDate.setMonth(this.currentDate.getMonth() + delta)`
with `delta` = -1 or +1, then re-render. -/
def navigate (dt : JSDate) (delta : Int) : JSDate :=
  setMonth dt (dt.month + delta)

/- ───────────────────────── Calendar: month grid ───────────────────────── -/

/-- One cell of the rendered month grid: a leading blank
(`<div class="calendar-day empty">`) or a numbered day cell. -/
inductive CalendarCell where
  | empty : CalendarCell
  | day (n : Int) : CalendarCell
deriving DecidableEq, Repr

/-- Leading-blank count of the month grid (src/main.js lines 945-946):
`startDay = firstDay.getDay(); startDay = startDay === 0 ? 6 : startDay - 1`. -/
def startDayOf (y m : Int) : Int :=
  let w := dayOfWeek y m 1
  if w = 0 then 6 else w - 1

/-- Cell list of the rendered month grid after the weekday header row
(src/main.js lines 952-962): `startDay` empty cells, then one day cell per
day 1..daysInMonth. -/
def calendarCells (y m : Int) : List CalendarCell :=
  List.replicate (startDayOf y m).toNat CalendarCell.empty ++
    (List.range (daysInMonth y m).toNat).map (fun i => CalendarCell.day (Int.ofNat i + 1))

/- ───────────────────────── Timer ───────────────────────── -/

/-- Timer fields of `SimpleWorkingView` (src/main.js lines 889-895), in
seconds for the durations and milliseconds for `timerEndTime`.  The
`timerAnimationFrame` handle is a host scheduling resource and carries no
countdown state, so it is not part of the model. -/
structure TimerState where
  workTime : Int
  breakTime : Int
  timeLeft : Int
  isWorkSession : Bool
  timerRunning : Bool
  timerEndTime : Option Int
deriving DecidableEq, Repr

/-- Constructor defaults (src/main.js lines 889-894): 40 min work, 5 min
break, not running, work phase, no end timestamp. -/
def initialTimerState : TimerState :=
  { workTime := 40 * 60, breakTime := 5 * 60, timeLeft := 40 * 60,
    isWorkSession := true, timerRunning := false, timerEndTime := none }

/-- JS `Math.round(remainingMs / 1000)` for an integer millisecond count:
Math.round x = ⌊x + 1/2⌋ (halves round toward positive infinity), and for
integer `n`, ⌊n/1000 + 1/2⌋ = (2n + 1000) div 2000 with floor division. -/
def roundMsToSec (n : Int) : Int :=
  (2 * n + 1000) / 2000

/-- startTimer (src/main.js lines 1143-1153): early return when already
running; otherwise mark running and set
`timerEndTime = Date.now() + timeLeft * 1000`. -/
def startTimer (s : TimerState) (now : Int) : TimerState :=
  if s.timerRunning then s
  else { s with timerRunning := true, timerEndTime := some (now + s.timeLeft * 1000) }

/-- pauseTimer (src/main.js lines 1181-1195): early return when not
running; otherwise clear the running flag (and cancel the pending frame,
not modelled).  `timeLeft` and `timerEndTime` are left untouched. -/
def pauseTimer (s : TimerState) : TimerState :=
  if s.timerRunning then { s with timerRunning := false } else s

/-- completeTimer (src/main.js lines 1211-1229): pause, flip the session
flag, set `timeLeft` to the new phase's full duration.  The sound cue and
the 2-second deferred `startTimer` are side effects outside this state
update; the deferred start is modelled by applying `startTimer` at a later
time. -/
def completeTimer (s : TimerState) : TimerState :=
  let s1 := pauseTimer s
  let newWork := !s1.isWorkSession
  { s1 with isWorkSession := newWork,
            timeLeft := if newWork then s1.workTime else s1.breakTime }

/-- One scheduler tick of the countdown loop (src/main.js lines 1155-1175):
early return when not running; recompute
`remainingSec = max(0, round((timerEndTime - now)/1000))`; at 0 call
`completeTimer`, otherwise store the value into `timeLeft` when it changed.
A JS `null` end timestamp coerces to 0 in the subtraction, modelled by
`Option.getD 0` (unreachable while running, see the invariant proofs). -/
def tick (s : TimerState) (now : Int) : TimerState :=
  if s.timerRunning then
    let remainingMs := s.timerEndTime.getD 0 - now
    let remainingSec := max 0 (roundMsToSec remainingMs)
    if remainingSec ≤ 0 then completeTimer s
    else if remainingSec ≠ s.timeLeft then { s with timeLeft := remainingSec }
    else s
  else s

/-- resetTimer (src/main.js lines 1197-1209): pause, force the work phase,
set `timeLeft` to the full work duration. -/
def resetTimer (s : TimerState) : TimerState :=
  let s1 := pauseTimer s
  { s1 with isWorkSession := true, timeLeft := s1.workTime }

/-- saveTimerSettings (src/main.js lines 1280-1300) specialised to input
strings whose `parseInt(value, 10)` succeeded, so the parsed minute values
`workMin`/`breakMin` are given directly: store `parsed * 60` into both
durations, and when not running also reset `timeLeft` to the current
phase's new duration.  `saveTimerSettingsStr` below keeps the string level
including the NaN outcome. -/
def saveTimerSettingsInt (s : TimerState) (workMin breakMin : Int) : TimerState :=
  let s1 := { s with workTime := workMin * 60, breakTime := breakMin * 60 }
  if s1.timerRunning then s1
  else { s1 with timeLeft := if s1.isWorkSession then s1.workTime else s1.breakTime }

/-- One completed phase of the auto-chaining loop, starting from a running
state: the tick that fires exactly at the end timestamp (which calls
`completeTimer`), followed by the deferred `startTimer` 2000 ms later
(src/main.js lines 1226-1228). -/
def cycle (s : TimerState) : TimerState :=
  let e := s.timerEndTime.getD 0
  startTimer (tick s e) (e + 2000)

/-- Iterated `cycle`: `n` consecutive phase completions with their
auto-starts. -/
def cycleIter : Nat → TimerState → TimerState
  | 0, s => s
  | n + 1, s => cycleIter n (cycle s)

/-- Timer states reachable from the constructor state by the six
operations the spec lists: start, pause, reset, complete, settings-save
and tick.  Operation times are arbitrary integers; settings inputs are
constrained to the ranges the spec says the presentation layer enforces
(work 1..180 min, break 1..60 min). -/
inductive ReachT : TimerState → Prop where
  | init : ReachT initialTimerState
  | start (s : TimerState) (t : Int) : ReachT s → ReachT (startTimer s t)
  | pause (s : TimerState) : ReachT s → ReachT (pauseTimer s)
  | reset (s : TimerState) : ReachT s → ReachT (resetTimer s)
  | complete (s : TimerState) : ReachT s → ReachT (completeTimer s)
  | tick (s : TimerState) (t : Int) : ReachT s → ReachT (tick s t)
  | save (s : TimerState) (w b : Int) : 1 ≤ w → w ≤ 180 → 1 ≤ b → b ≤ 60 →
      ReachT s → ReachT (saveTimerSettingsInt s w b)

/-- Timer states reachable together with a non-decreasing wall clock
(second component: the time of the latest operation), where settings-save
only happens while the timer is not running.  This is the restricted
machine under which the spec's range invariant actually holds. -/
inductive ReachTM : TimerState → Int → Prop where
  | init (t : Int) : ReachTM initialTimerState t
  | start (s : TimerState) (t t2 : Int) : ReachTM s t → t ≤ t2 →
      ReachTM (startTimer s t2) t2
  | pause (s : TimerState) (t t2 : Int) : ReachTM s t → t ≤ t2 →
      ReachTM (pauseTimer s) t2
  | reset (s : TimerState) (t t2 : Int) : ReachTM s t → t ≤ t2 →
      ReachTM (resetTimer s) t2
  | complete (s : TimerState) (t t2 : Int) : ReachTM s t → t ≤ t2 →
      ReachTM (completeTimer s) t2
  | tick (s : TimerState) (t t2 : Int) : ReachTM s t → t ≤ t2 →
      ReachTM (tick s t2) t2
  | save (s : TimerState) (t t2 w b : Int) : ReachTM s t → t ≤ t2 →
      s.timerRunning = false → 1 ≤ w → w ≤ 180 → 1 ≤ b → b ≤ 60 →
      ReachTM (saveTimerSettingsInt s w b) t2

/-- Inductive strengthening of the spec's timer range invariant, relative
to the current wall-clock time `t`: durations are positive and in range,
`timeLeft` lies in `[0, max work break]`, and while running the end
timestamp is set and lies at most `max work break` seconds in the future. -/
def timerInv (s : TimerState) (t : Int) : Prop :=
  0 < s.workTime ∧ s.workTime ≤ 10800 ∧ 0 < s.breakTime ∧ s.breakTime ≤ 3600 ∧
  0 ≤ s.timeLeft ∧ s.timeLeft ≤ max s.workTime s.breakTime ∧
  (s.timerRunning = true →
    ∃ e, s.timerEndTime = some e ∧ e - t ≤ 1000 * max s.workTime s.breakTime)

/- ────────────────── Timer settings at the string level ────────────────── -/

/-- Whitespace class trimmed or skipped by the JS string operations used
here (the plugin only ever meets ASCII whitespace). -/
def jsIsSpace (c : Char) : Bool :=
  c == ' ' || c == '\t' || c == '\n' || c == '\r'

/-- Decimal value of a digit list (the digit prefix accepted by
`parseInt`). -/
def digitsToInt (cs : List Char) : Int :=
  cs.foldl (fun n c => 10 * n + (Int.ofNat (c.toNat - 48))) 0

/-- ECMAScript `parseInt(str, 10)`: skip leading whitespace, read an
optional sign, then the longest digit prefix; `none` models the NaN result
when no digit follows. -/
def jsParseInt (str : String) : Option Int :=
  let cs := str.data.dropWhile jsIsSpace
  match cs with
  | '-' :: r =>
    let digits := r.takeWhile Char.isDigit
    if digits.isEmpty then none else some (-(digitsToInt digits))
  | '+' :: r =>
    let digits := r.takeWhile Char.isDigit
    if digits.isEmpty then none else some (digitsToInt digits)
  | r =>
    let digits := r.takeWhile Char.isDigit
    if digits.isEmpty then none else some (digitsToInt digits)

/-- Timer fields whose numeric values may be NaN after an unvalidated
settings save; a JS number that is possibly NaN is `Option Int`
(`none` = NaN, and arithmetic propagates NaN via `Option.map`). -/
structure TimerStateN where
  workTime : Option Int
  breakTime : Option Int
  timeLeft : Option Int
  isWorkSession : Bool
  timerRunning : Bool
deriving DecidableEq, Repr

/-- saveTimerSettings (src/main.js lines 1280-1300) at the string level:
`workTime = parseInt(workInput.value, 10) * 60` and likewise for the break
input, with no range or NaN checking; when not running, `timeLeft` is then
reset to the current phase's stored duration, NaN included. -/
def saveTimerSettingsStr (s : TimerStateN) (workVal breakVal : String) : TimerStateN :=
  let s1 := { s with workTime := (jsParseInt workVal).map (fun n => n * 60),
                     breakTime := (jsParseInt breakVal).map (fun n => n * 60) }
  if s1.timerRunning then s1
  else { s1 with timeLeft := if s1.isWorkSession then s1.workTime else s1.breakTime }

/- ───────────────────────── Tasks ───────────────────────── -/

/-- One entry of `this.tasks` (src/main.js lines 1373-1377). -/
structure TaskItem where
  id : Int
  text : String
  completed : Bool
deriving DecidableEq, Repr

/-- JS `String.prototype.trim`: drop whitespace from both ends. -/
def jsTrim (str : String) : String :=
  ⟨((str.data.dropWhile jsIsSpace).reverse.dropWhile jsIsSpace).reverse⟩

/-- addTask (src/main.js lines 1368-1381): trim the input value, early
return when the trimmed text is empty (the only falsy string), otherwise
push `{id: Date.now(), text, completed: false}`.  `now` is the wall-clock
millisecond count. -/
def addTask (tasks : List TaskItem) (inputValue : String) (now : Int) : List TaskItem :=
  let text := jsTrim inputValue
  if text = "" then tasks
  else tasks ++ [{ id := now, text := text, completed := false }]

/-- toggleTask (src/main.js lines 1383-1389): `tasks.find(t => t.id ===
taskId)` returns the first match, whose `completed` flag is flipped in
place; later tasks with the same id are untouched. -/
def toggleTask : List TaskItem → Int → List TaskItem
  | [], _ => []
  | t :: ts, taskId =>
    if t.id = taskId then { t with completed := !t.completed } :: ts
    else t :: toggleTask ts taskId

/-- deleteTask (src/main.js lines 1391-1394):
`this.tasks = this.tasks.filter(t => t.id !== taskId)` keeps exactly the
tasks whose id differs. -/
def deleteTask (tasks : List TaskItem) (taskId : Int) : List TaskItem :=
  tasks.filter (fun t => t.id ≠ taskId)

/-- Task lists reachable from the initial empty list (src/main.js line
901) by the three operations, with arbitrary wall-clock times on add. -/
inductive ReachTasks : List TaskItem → Prop where
  | init : ReachTasks []
  | add (l : List TaskItem) (text : String) (now : Int) :
      ReachTasks l → ReachTasks (addTask l text now)
  | toggle (l : List TaskItem) (i : Int) : ReachTasks l → ReachTasks (toggleTask l i)
  | delete (l : List TaskItem) (i : Int) : ReachTasks l → ReachTasks (deleteTask l i)

/- ───────────────────────── Daily file handler ───────────────────────── -/

/-- A message element appended to the first `.dtp-section`: the transient
success indicator or the persistent error indicator. -/
inductive FileMessage where
  | success (text : String) : FileMessage
  | error (text : String) : FileMessage
deriving DecidableEq, Repr

/-- Observable outcome of one `createDailyFile` call: which path was
opened, which path was created, and which message element was shown. -/
structure FileOutcome where
  opened : Option String
  created : Option String
  message : Option FileMessage
deriving DecidableEq, Repr

/-- createDailyFile (src/main.js lines 1018-1052).  The host vault is a
parameter: `vaultFiles` is the set of existing paths consulted by
`getAbstractFileByPath`, `createRes` is the result of `vault.create`
(`Except.error e` models a rejected promise with message `e`), and
`openRes` the result of `leaf.openFile`.  The whole body sits in one
try/catch whose handler appends the persistent error message built from
`error.message`; the success branch appends a transient success message. -/
def createDailyFile (vaultFiles : List String) (createRes openRes : Except String Unit)
    (dateStr : String) : FileOutcome :=
  let fileName := dateStr ++ ".md"
  if vaultFiles.contains fileName then
    match openRes with
    | Except.ok _ => { opened := some fileName, created := none, message := none }
    | Except.error e =>
      { opened := none, created := none,
        message := some (FileMessage.error ("❌ Error creating file: " ++ e)) }
  else
    match createRes with
    | Except.error e =>
      { opened := none, created := none,
        message := some (FileMessage.error ("❌ Error creating file: " ++ e)) }
    | Except.ok _ =>
      match openRes with
      | Except.error e =>
        { opened := none, created := some fileName,
          message := some (FileMessage.error ("❌ Error creating file: " ++ e)) }
      | Except.ok _ =>
        { opened := some fileName, created := some fileName,
          message := some (FileMessage.success ("✅ File created: " ++ fileName)) }

/-- The task-list and timer fields of the view, as affected by
`createDailyFile`: the method reads and writes neither `this.tasks` nor
any timer field, so its action on them is the identity, paired with the
file outcome. -/
structure WidgetState where
  tasks : List TaskItem
  timer : TimerState
deriving DecidableEq, Repr

/-- createDailyFile as an action on the whole widget state: the source
method touches no task or timer field, so the state component is returned
unchanged. -/
def createDailyFileWidget (v : WidgetState) (vaultFiles : List String)
    (createRes openRes : Except String Unit) (dateStr : String) :
    WidgetState × FileOutcome :=
  (v, createDailyFile vaultFiles createRes openRes dateStr)

/- ═══════════════════════════ Theorems ═══════════════════════════ -/

/-- Every month has between 28 and 31 days. -/
theorem daysInMonth_bounds (y m : Int) : 28 ≤ daysInMonth y m ∧ daysInMonth y m ≤ 31 := by
  unfold daysInMonth
  split_ifs <;> omega

/-- C7: addTask trims its input and is a no-op (list unchanged) when the
trimmed text is empty; otherwise it appends exactly one task
`{id := now, text := trimmed text, completed := false}` to the end of the
list, increasing the length by 1, and the invariant that every stored
task's text is non-empty is preserved. -/
theorem addTask_spec (tasks : List TaskItem) (inputValue : String) (now : Int)
    (hinv : ∀ t ∈ tasks, t.text ≠ "") :
    (jsTrim inputValue = "" → addTask tasks inputValue now = tasks) ∧
    (jsTrim inputValue ≠ "" →
      addTask tasks inputValue now
        = tasks ++ [{ id := now, text := jsTrim inputValue, completed := false }] ∧
      (addTask tasks inputValue now).length = tasks.length + 1) ∧
    (∀ t ∈ addTask tasks inputValue now, t.text ≠ "") := by
  refine ⟨fun h => by simp [addTask, h], fun h => by simp [addTask, h], ?_⟩
  intro t ht
  by_cases h : jsTrim inputValue = ""
  · simp [addTask, h] at ht
    exact hinv t ht
  · simp [addTask, h] at ht
    rcases ht with ht | ht
    · exact hinv t ht
    · rw [ht]
      exact h

/-- Witness for C7 at a concrete input. -/
theorem addTask_spec_witness :
    addTask [] " buy milk " 3 = [{ id := 3, text := "buy milk", completed := false }] ∧
    (addTask [] " buy milk " 3).length = ([] : List TaskItem).length + 1 :=
  (addTask_spec [] " buy milk " 3 (by simp)).2.1 (by decide)

/-- Helper for C6: with pairwise distinct ids, deleting an id that occurs
in the list shortens it by exactly one. -/
theorem deleteTask_length_of_nodup (i : Int) :
    ∀ tasks : List TaskItem, (tasks.map TaskItem.id).Nodup →
      (∃ t ∈ tasks, t.id = i) → (deleteTask tasks i).length + 1 = tasks.length := by
  intro tasks
  induction tasks with
  | nil => intro _ h; simp at h
  | cons a l ih =>
    intro hnd hex
    rw [List.map_cons, List.nodup_cons] at hnd
    obtain ⟨ha, hl⟩ := hnd
    by_cases hid : a.id = i
    · have hnone : ∀ t ∈ l, t.id ≠ i := by
        intro t ht hti
        exact ha ((hid.trans hti.symm) ▸ List.mem_map_of_mem TaskItem.id ht)
      have hdel : deleteTask (a :: l) i = deleteTask l i := by
        simp [deleteTask, hid]
      have hkeep : deleteTask l i = l :=
        List.filter_eq_self.mpr (fun t ht => by simpa using hnone t ht)
      rw [hdel, hkeep]
      simp
    · have hdel : deleteTask (a :: l) i = a :: deleteTask l i := by
        simp [deleteTask, hid]
      have hex2 : ∃ t ∈ l, t.id = i := by
        rcases hex with ⟨t, ht, hti⟩
        rcases List.mem_cons.mp ht with rfl | ht2
        · exact absurd hti hid
        · exact ⟨t, ht2, hti⟩
      have hrec := ih hl hex2
      rw [hdel]
      simp only [List.length_cons]
      omega

/-- C6 counterexample: two tasks added in the same wall-clock millisecond
share id 5; the resulting two-element list is reachable, the id exists in
it, yet `deleteTask` (a JS `filter`) removes BOTH entries, not exactly
one. -/
theorem deleteTask_duplicate_counterexample :
    ReachTasks [⟨5, "a", false⟩, ⟨5, "b", false⟩] ∧
    (∃ t ∈ ([⟨5, "a", false⟩, ⟨5, "b", false⟩] : List TaskItem), t.id = 5) ∧
    deleteTask [⟨5, "a", false⟩, ⟨5, "b", false⟩] 5 = [] ∧
    ¬ ((deleteTask [⟨5, "a", false⟩, ⟨5, "b", false⟩] 5).length + 1
        = ([⟨5, "a", false⟩, ⟨5, "b", false⟩] : List TaskItem).length) := by
  refine ⟨?_, ⟨⟨5, "a", false⟩, by simp, rfl⟩, by decide, by decide⟩
  have h1 : addTask [] "a" 5 = [⟨5, "a", false⟩] := by decide
  have h2 : addTask [⟨5, "a", false⟩] "b" 5 = [⟨5, "a", false⟩, ⟨5, "b", false⟩] := by decide
  have r1 : ReachTasks [⟨5, "a", false⟩] := h1 ▸ ReachTasks.add [] "a" 5 ReachTasks.init
  exact h2 ▸ ReachTasks.add [⟨5, "a", false⟩] "b" 5 r1

/-- C6 amended: deleteTask is a no-op when no task has the id, and when
the ids are pairwise distinct (the spec's benign uniqueness assumption) it
removes exactly one entry when the id exists; with duplicated ids (two
adds in the same millisecond) the JS `filter` removes every duplicate at
once, see the counterexample. -/
theorem deleteTask_spec (tasks : List TaskItem) (i : Int)
    (hnodup : (tasks.map TaskItem.id).Nodup) :
    ((∀ t ∈ tasks, t.id ≠ i) → deleteTask tasks i = tasks) ∧
    ((∃ t ∈ tasks, t.id = i) → (deleteTask tasks i).length + 1 = tasks.length) :=
  ⟨fun h => List.filter_eq_self.mpr (fun t ht => by simpa using h t ht),
   deleteTask_length_of_nodup i tasks hnodup⟩

/-- Witness for C6's amended theorem at a concrete input. -/
theorem deleteTask_spec_witness :
    (deleteTask [⟨1, "a", false⟩, ⟨2, "b", true⟩] 2).length + 1
      = ([⟨1, "a", false⟩, ⟨2, "b", true⟩] : List TaskItem).length :=
  (deleteTask_spec [⟨1, "a", false⟩, ⟨2, "b", true⟩] 2 (by decide)).2
    ⟨⟨2, "b", true⟩, by simp, rfl⟩

/-- C1 counterexample: the cursor state January 31, 2025 is a valid date
(reachable as the initial cursor when the view opens on that day), yet
navigate(+1) followed by navigate(-1) lands on February 3, not back on
January: `setMonth` keeps the day-of-month, so Feb 31 overflows to
March 3, and stepping back from March gives February. -/
theorem navigate_roundtrip_counterexample :
    1 ≤ (⟨2025, 0, 31⟩ : JSDate).day ∧
    (⟨2025, 0, 31⟩ : JSDate).day ≤ daysInMonth 2025 0 ∧
    navigate (navigate ⟨2025, 0, 31⟩ 1) (-1) = ⟨2025, 1, 3⟩ ∧
    (navigate (navigate (⟨2025, 0, 31⟩ : JSDate) 1) (-1)).month
      ≠ (⟨2025, 0, 31⟩ : JSDate).month := by
  decide

/-- C1 amended: navigate(+1) then navigate(-1) returns the cursor to the
original (year, month) — with the same day — for every valid cursor state
whose day-of-month also fits in the following month (in particular for
every day ≤ 28); when the day does not fit, `setMonth` overflows into the
month after and the round trip lands one month ahead, see the
counterexample. -/
theorem navigate_roundtrip (dt : JSDate)
    (hm1 : 0 ≤ dt.month) (hm2 : dt.month ≤ 11)
    (hd1 : 1 ≤ dt.day) (hd2 : dt.day ≤ daysInMonth dt.year dt.month)
    (hfit : dt.day ≤ daysInMonth (if dt.month = 11 then dt.year + 1 else dt.year)
                                 (if dt.month = 11 then 0 else dt.month + 1)) :
    navigate (navigate dt 1) (-1) = dt := by
  obtain ⟨y, m, d⟩ := dt
  simp only at hm1 hm2 hd1 hd2 hfit
  by_cases h11 : m = 11
  · subst h11
    rw [if_pos rfl, if_pos rfl] at hfit
    have h1231 : daysInMonth y 11 = 31 := by norm_num [daysInMonth]
    have h0131 : daysInMonth (y + 1) 0 = 31 := by norm_num [daysInMonth]
    have e1 : navigate (⟨y, 11, d⟩ : JSDate) 1 = ⟨y + 1, 0, d⟩ := by
      have ha : (11 + 1 : Int) / 12 = 1 := by norm_num
      have hb : (11 + 1 : Int) % 12 = 0 := by norm_num
      simp only [navigate, setMonth, ha, hb]
      rw [if_pos (by rw [h0131]; omega)]
    have e2 : navigate (⟨y + 1, 0, d⟩ : JSDate) (-1) = ⟨y, 11, d⟩ := by
      have ha : (0 + -1 : Int) / 12 = -1 := by decide
      have hb : (0 + -1 : Int) % 12 = 11 := by decide
      simp only [navigate, setMonth, ha, hb]
      have hy : y + 1 + -1 = y := by ring
      rw [hy, if_pos (by rw [h1231]; omega)]
    rw [e1, e2]
  · rw [if_neg h11, if_neg h11] at hfit
    have ha : (m + 1) / 12 = 0 := by omega
    have hb : (m + 1) % 12 = m + 1 := by omega
    have e1 : navigate (⟨y, m, d⟩ : JSDate) 1 = ⟨y, m + 1, d⟩ := by
      simp only [navigate, setMonth, ha, hb]
      have hy : y + 0 = y := by ring
      rw [hy, if_pos hfit]
    have hc : (m + 1 + -1) / 12 = 0 := by omega
    have hd : (m + 1 + -1) % 12 = m := by omega
    have e2 : navigate (⟨y, m + 1, d⟩ : JSDate) (-1) = ⟨y, m, d⟩ := by
      simp only [navigate, setMonth, hc, hd]
      have hy : y + 0 = y := by ring
      rw [hy, if_pos hd2]
    rw [e1, e2]

/-- Witness for C1's amended theorem: round trip from June 15, 2025. -/
theorem navigate_roundtrip_witness :
    navigate (navigate ⟨2025, 5, 15⟩ 1) (-1) = (⟨2025, 5, 15⟩ : JSDate) :=
  navigate_roundtrip ⟨2025, 5, 15⟩ (by norm_num) (by norm_num) (by norm_num)
    (by decide) (by decide)

/-- C8: the month grid's leading-blank count equals
`(firstWeekdayOfMonth + 6) % 7` (Sunday mapped to position 6), the grid
holds exactly the blanks plus one cell per day of the month, and every day
`d` sits in the 7-column Monday-first layout at the column matching its
own weekday. -/
theorem calendar_grid_spec (y m : Int) (_hm1 : 0 ≤ m) (_hm2 : m ≤ 11) :
    startDayOf y m = (dayOfWeek y m 1 + 6) % 7 ∧
    (calendarCells y m).length = (startDayOf y m).toNat + (daysInMonth y m).toNat ∧
    (∀ d : Int, 1 ≤ d → d ≤ daysInMonth y m →
      (startDayOf y m + (d - 1)) % 7 = (dayOfWeek y m d + 6) % 7) := by
  have hlin : ∀ d : Int, daysFromCivil y (m + 1) d = daysFromCivil y (m + 1) 1 + (d - 1) := by
    intro d
    simp only [daysFromCivil]
    ring
  refine ⟨?_, ?_, ?_⟩
  · simp only [startDayOf, dayOfWeek]
    split_ifs with h
    · omega
    · omega
  · rw [calendarCells]
    rw [List.length_append, List.length_replicate, List.length_map, List.length_range]
  · intro d h1 h2
    simp only [startDayOf, dayOfWeek]
    rw [hlin d]
    split_ifs with h
    · omega
    · omega

/-- Witness for C8 at October 2025 and day 11. -/
theorem calendar_grid_spec_witness :
    startDayOf 2025 9 = (dayOfWeek 2025 9 1 + 6) % 7 ∧
    (startDayOf 2025 9 + (11 - 1)) % 7 = (dayOfWeek 2025 9 11 + 6) % 7 :=
  ⟨(calendar_grid_spec 2025 9 (by norm_num) (by norm_num)).1,
   (calendar_grid_spec 2025 9 (by norm_num) (by norm_num)).2.2 11 (by norm_num) (by decide)⟩

/-- C2: startTimer is a no-op when already running; otherwise it marks the
timer running with `timerEndTime = now + timeLeft * 1000`, and every tick
of a running state with end timestamp `e` recomputes the remaining seconds
as `max 0 (round((e - now)/1000))`, calling `completeTimer` exactly when
that value is 0 and storing it into `timeLeft` otherwise. -/
theorem timer_start_tick_spec (s srun : TimerState) (tStart tTick e : Int)
    (h : s.timerRunning = false) (hrun : srun.timerRunning = true)
    (he : srun.timerEndTime = some e) :
    (∀ s2 : TimerState, s2.timerRunning = true → startTimer s2 tStart = s2) ∧
    startTimer s tStart
      = { s with timerRunning := true,
                 timerEndTime := some (tStart + s.timeLeft * 1000) } ∧
    (max 0 (roundMsToSec (e - tTick)) = 0 → tick srun tTick = completeTimer srun) ∧
    (0 < max 0 (roundMsToSec (e - tTick)) →
      (tick srun tTick).timeLeft = max 0 (roundMsToSec (e - tTick)) ∧
      (tick srun tTick).timerRunning = true) := by
  refine ⟨fun s2 h2 => by simp [startTimer, h2], by simp [startTimer, h], ?_, ?_⟩
  · intro h0
    simp [tick, hrun, he, h0]
  · intro hpos
    have hne0 : ¬ (max 0 (roundMsToSec (e - tTick)) ≤ 0) := by omega
    by_cases hch : max 0 (roundMsToSec (e - tTick)) = srun.timeLeft
    · rw [hch] at hne0
      simp [tick, hrun, he, hne0, hch]
    · simp [tick, hrun, he, hne0, hch]

/-- Witness for C2: start the constructor state at time 0 and tick it at
time 1000; one second has elapsed, so 2399 of the 2400 seconds remain. -/
theorem timer_start_tick_spec_witness :
    (tick (startTimer initialTimerState 0) 1000).timeLeft = 2399 ∧
    (tick (startTimer initialTimerState 0) 1000).timerRunning = true :=
  (timer_start_tick_spec initialTimerState (startTimer initialTimerState 0) 0 1000 2400000
    rfl rfl rfl).2.2.2 (by decide)

/-- C5: saveTimerSettings invoked while the timer is not running updates
both duration fields (minutes times 60) and resets `timeLeft` to the
current phase's new full duration; in particular saving (25, 5) in the
work phase sets `timeLeft` to 1500 seconds. -/
theorem save_settings_resets_remaining (s : TimerState) (w b : Int)
    (h : s.timerRunning = false) :
    (saveTimerSettingsInt s w b).workTime = w * 60 ∧
    (saveTimerSettingsInt s w b).breakTime = b * 60 ∧
    (saveTimerSettingsInt s w b).timeLeft
      = (if s.isWorkSession then w * 60 else b * 60) ∧
    (s.isWorkSession = true → (saveTimerSettingsInt s 25 5).timeLeft = 1500) := by
  refine ⟨by simp [saveTimerSettingsInt, h], by simp [saveTimerSettingsInt, h],
          by simp [saveTimerSettingsInt, h], ?_⟩
  intro hw
  simp [saveTimerSettingsInt, h, hw]

/-- Witness for C5 at the constructor state. -/
theorem save_settings_resets_remaining_witness :
    (saveTimerSettingsInt initialTimerState 25 5).timeLeft = 1500 :=
  (save_settings_resets_remaining initialTimerState 25 5 rfl).2.2.2 rfl

/-- C10: saveTimerSettings performs no range or validity checking: both
durations are stored as `parseInt(value, 10) * 60` verbatim, so a
non-numeric input stores NaN and an in-grammar but out-of-range input such
as "999" stores 59940 seconds, far above the spec's 180-minute work cap;
when not running the stored value, NaN included, is copied into the
remaining time. -/
theorem save_settings_unvalidated (s : TimerStateN) (w b : String)
    (hr : s.timerRunning = false) (hw : s.isWorkSession = true) :
    (saveTimerSettingsStr s w b).workTime = (jsParseInt w).map (fun n => n * 60) ∧
    (saveTimerSettingsStr s w b).breakTime = (jsParseInt b).map (fun n => n * 60) ∧
    (saveTimerSettingsStr s w b).timeLeft = (jsParseInt w).map (fun n => n * 60) ∧
    jsParseInt "abc" = none ∧
    (saveTimerSettingsStr s "abc" b).workTime = none ∧
    (saveTimerSettingsStr s "abc" b).timeLeft = none ∧
    (saveTimerSettingsStr s "999" b).workTime = some 59940 ∧
    ¬ ((59940 : Int) ≤ 180 * 60) := by
  have habc : jsParseInt "abc" = none := by decide
  have h999 : jsParseInt "999" = some 999 := by decide
  refine ⟨by simp [saveTimerSettingsStr, hr], by simp [saveTimerSettingsStr, hr],
          by simp [saveTimerSettingsStr, hr, hw], habc,
          by simp [saveTimerSettingsStr, hr, habc],
          by simp [saveTimerSettingsStr, hr, hw, habc],
          by simp [saveTimerSettingsStr, hr, h999],
          by norm_num⟩

/-- Witness for C10 at a concrete not-running work-phase state. -/
theorem save_settings_unvalidated_witness :
    (saveTimerSettingsStr ⟨some 2400, some 300, some 2400, true, false⟩ "abc" "5").workTime
      = none ∧
    (saveTimerSettingsStr ⟨some 2400, some 300, some 2400, true, false⟩ "abc" "5").timeLeft
      = none :=
  ⟨(save_settings_unvalidated ⟨some 2400, some 300, some 2400, true, false⟩ "abc" "5"
      rfl rfl).2.2.2.2.1,
   (save_settings_unvalidated ⟨some 2400, some 300, some 2400, true, false⟩ "abc" "5"
      rfl rfl).2.2.2.2.2.1⟩

/-- C9: when the daily file already exists, createDailyFile opens it and
neither creates anything nor shows a message; when creation (or the
subsequent open) fails, the error is caught and surfaced as a persistent
error message that contains the underlying failure text; and the call
leaves the task list and timer state untouched. -/
theorem daily_file_spec (v : WidgetState) (vaultFiles vf2 : List String)
    (createRes openRes : Except String Unit) (dateStr e : String)
    (hmem : vaultFiles.contains (dateStr ++ ".md") = true)
    (hnomem : vf2.contains (dateStr ++ ".md") = false) :
    createDailyFile vaultFiles createRes (Except.ok ()) dateStr
      = { opened := some (dateStr ++ ".md"), created := none, message := none } ∧
    createDailyFile vf2 (Except.error e) openRes dateStr
      = { opened := none, created := none,
          message := some (FileMessage.error ("❌ Error creating file: " ++ e)) } ∧
    createDailyFile vf2 (Except.ok ()) (Except.error e) dateStr
      = { opened := none, created := some (dateStr ++ ".md"),
          message := some (FileMessage.error ("❌ Error creating file: " ++ e)) } ∧
    (∃ pre, "❌ Error creating file: " ++ e = pre ++ e) ∧
    (createDailyFileWidget v vaultFiles createRes openRes dateStr).1 = v := by
  have hmem2 : dateStr ++ ".md" ∈ vaultFiles := by simpa using hmem
  have hnomem2 : dateStr ++ ".md" ∉ vf2 := by simpa using hnomem
  refine ⟨?_, ?_, ?_, ⟨"❌ Error creating file: ", rfl⟩, rfl⟩
  · simp [createDailyFile, hmem2]
  · simp [createDailyFile, hnomem2]
  · simp [createDailyFile, hnomem2]

/-- Witness for C9 at concrete vault contents and a concrete error. -/
theorem daily_file_spec_witness :
    createDailyFile ["2025-01-01.md"] (Except.error "disk full") (Except.ok ()) "2025-01-01"
      = { opened := some "2025-01-01.md", created := none, message := none } ∧
    createDailyFile [] (Except.error "disk full") (Except.ok ()) "2025-01-01"
      = { opened := none, created := none,
          message := some (FileMessage.error "❌ Error creating file: disk full") } :=
  ⟨(daily_file_spec ⟨[], initialTimerState⟩ ["2025-01-01.md"] [] (Except.error "disk full")
      (Except.ok ()) "2025-01-01" "disk full" (by decide) (by decide)).1,
   (daily_file_spec ⟨[], initialTimerState⟩ ["2025-01-01.md"] [] (Except.error "disk full")
      (Except.ok ()) "2025-01-01" "disk full" (by decide) (by decide)).2.1⟩

/-- Helper for C3: one full cycle of a running 60/60 timer — the tick at
the end timestamp completes the phase, and the deferred start 2 seconds
later begins the other phase with 60 seconds remaining. -/
theorem cycle_phase_step (s : TimerState) (e : Int)
    (hw : s.workTime = 60) (hb : s.breakTime = 60)
    (hr : s.timerRunning = true) (he : s.timerEndTime = some e) :
    (cycle s).workTime = 60 ∧ (cycle s).breakTime = 60 ∧
    (cycle s).timerRunning = true ∧
    (cycle s).timerEndTime = some (e + 2000 + 60 * 1000) ∧
    (cycle s).timeLeft = 60 ∧
    (cycle s).isWorkSession = !s.isWorkSession := by
  have h0 : roundMsToSec 0 = 0 := by decide
  have htick : tick s e = completeTimer s := by
    simp [tick, hr, he, h0]
  have hcom : completeTimer s
      = { s with timerRunning := false, isWorkSession := !s.isWorkSession, timeLeft := 60 } := by
    simp [completeTimer, pauseTimer, hr, hw, hb]
  simp [cycle, he, htick, hcom, startTimer]
  exact ⟨hw, hb⟩

/-- Helper for C3: every later cycle of a running 60/60 timer is again
running with 60 seconds remaining, and the phase flag alternates with the
cycle count's parity. -/
theorem cycleIter_phase_props (n : Nat) :
    ∀ (s : TimerState) (e : Int), s.workTime = 60 → s.breakTime = 60 →
      s.timerRunning = true → s.timerEndTime = some e →
      (cycleIter (n + 1) s).workTime = 60 ∧ (cycleIter (n + 1) s).breakTime = 60 ∧
      (cycleIter (n + 1) s).timerRunning = true ∧
      (∃ e2, (cycleIter (n + 1) s).timerEndTime = some e2) ∧
      (cycleIter (n + 1) s).timeLeft = 60 ∧
      (cycleIter (n + 1) s).isWorkSession
        = (if (n + 1) % 2 = 0 then s.isWorkSession else !s.isWorkSession) := by
  induction n with
  | zero =>
    intro s e hw hb hr he
    have h := cycle_phase_step s e hw hb hr he
    refine ⟨?_, ?_, ?_, ?_, ?_, ?_⟩ <;>
      simp [cycleIter, h.1, h.2.1, h.2.2.1, h.2.2.2.1, h.2.2.2.2.1, h.2.2.2.2.2]
  | succ k ih =>
    intro s e hw hb hr he
    have h := cycle_phase_step s e hw hb hr he
    have hrec := ih (cycle s) (e + 2000 + 60 * 1000) h.1 h.2.1 h.2.2.1 h.2.2.2.1
    have hit : cycleIter (k + 1 + 1) s = cycleIter (k + 1) (cycle s) := rfl
    refine ⟨hit ▸ hrec.1, hit ▸ hrec.2.1, hit ▸ hrec.2.2.1, hit ▸ hrec.2.2.2.1, 
      hit ▸ hrec.2.2.2.2.1, ?_⟩
    rw [hit, hrec.2.2.2.2.2, h.2.2.2.2.2]
    by_cases hk : (k + 1) % 2 = 0
    · have hk2 : ¬ ((k + 1 + 1) % 2 = 0) := by omega
      simp [hk, hk2]
    · have hk2 : (k + 1 + 1) % 2 = 0 := by omega
      simp [hk, hk2]

/-- C3: when the countdown reaches 0, completeTimer pauses the timer,
flips the phase flag, and sets the remaining time to the new phase's full
duration; the 2-second deferred startTimer then starts the new phase.
With work = break = 60 s the cycles repeat indefinitely: after every
completed phase the timer is running again with 60 seconds remaining and
the phase flag alternating with the number of completions. -/
theorem timer_complete_auto_chain (s : TimerState) (e t : Int)
    (hw : s.workTime = 60) (hb : s.breakTime = 60)
    (hr : s.timerRunning = true) (he : s.timerEndTime = some e) :
    (completeTimer s).timerRunning = false ∧
    (completeTimer s).isWorkSession = !s.isWorkSession ∧
    (completeTimer s).timeLeft = 60 ∧
    (startTimer (completeTimer s) t).timerRunning = true ∧
    (startTimer (completeTimer s) t).timeLeft = 60 ∧
    (startTimer (completeTimer s) t).timerEndTime = some (t + 60 * 1000) ∧
    ∀ n : Nat, 1 ≤ n →
      (cycleIter n s).timeLeft = 60 ∧ (cycleIter n s).timerRunning = true ∧
      (cycleIter n s).isWorkSession
        = (if n % 2 = 0 then s.isWorkSession else !s.isWorkSession) := by
  have hcom : completeTimer s
      = { s with timerRunning := false, isWorkSession := !s.isWorkSession, timeLeft := 60 } := by
    simp [completeTimer, pauseTimer, hr, hw, hb]
  refine ⟨by simp [hcom], by simp [hcom], by simp [hcom], ?_, ?_, ?_, ?_⟩
  · simp [hcom, startTimer]
  · simp [hcom, startTimer]
  · simp [hcom, startTimer]
  · intro n hn
    match n, hn with
    | (k + 1), _ =>
      have h := cycleIter_phase_props k s e hw hb hr he
      exact ⟨h.2.2.2.2.1, h.2.2.1, h.2.2.2.2.2⟩

/-- Witness for C3: a running 60/60 work-phase timer ending at t = 60000;
after three completed phases it is running in the break phase with 60
seconds remaining. -/
theorem timer_complete_auto_chain_witness :
    (cycleIter 3 ⟨60, 60, 60, true, true, some 60000⟩).timeLeft = 60 ∧
    (cycleIter 3 ⟨60, 60, 60, true, true, some 60000⟩).timerRunning = true ∧
    (cycleIter 3 ⟨60, 60, 60, true, true, some 60000⟩).isWorkSession
      = (if 3 % 2 = 0 then true else !true) :=
  (timer_complete_auto_chain ⟨60, 60, 60, true, true, some 60000⟩ 60000 62000
    rfl rfl rfl rfl).2.2.2.2.2.2 3 (by norm_num)

/-- C4 counterexample: the range invariant fails on a reachable state.
From the constructor state, startTimer at time 0 leaves 2400 seconds
remaining, and a settings-save of (1 min, 1 min) WHILE RUNNING — with
inputs inside the presentation layer's allowed ranges — rewrites both
durations to 60 without touching `timeLeft`, so remainingSeconds = 2400
exceeds max(work, break) = 60. -/
theorem timer_invariant_counterexample :
    ReachT ⟨60, 60, 2400, true, true, some 2400000⟩ ∧
    ¬ ((⟨60, 60, 2400, true, true, some 2400000⟩ : TimerState).timeLeft
        ≤ max (⟨60, 60, 2400, true, true, some 2400000⟩ : TimerState).workTime
              (⟨60, 60, 2400, true, true, some 2400000⟩ : TimerState).breakTime) := by
  constructor
  · have h : saveTimerSettingsInt (startTimer initialTimerState 0) 1 1
        = ⟨60, 60, 2400, true, true, some 2400000⟩ := by decide
    exact h ▸ ReachT.save (startTimer initialTimerState 0) 1 1 (by norm_num) (by norm_num)
      (by norm_num) (by norm_num) (ReachT.start initialTimerState 0 ReachT.init)
  · decide

/-- Helper for C4: completeTimer re-establishes the strengthened timer
invariant from duration bounds alone. -/
theorem timerInv_completeTimer (s : TimerState) (t2 : Int)
    (hw1 : 0 < s.workTime) (hw2 : s.workTime ≤ 10800)
    (hb1 : 0 < s.breakTime) (hb2 : s.breakTime ≤ 3600) :
    timerInv (completeTimer s) t2 := by
  have hf : (completeTimer s).workTime = s.workTime ∧
      (completeTimer s).breakTime = s.breakTime ∧
      ((completeTimer s).timeLeft = s.workTime ∨ (completeTimer s).timeLeft = s.breakTime) ∧
      (completeTimer s).timerRunning = false := by
    by_cases hr : s.timerRunning = true <;>
      by_cases hsw : s.isWorkSession = true <;>
      simp [completeTimer, pauseTimer, hr, hsw]
  obtain ⟨hf1, hf2, hf3, hf4⟩ := hf
  rcases hf3 with h3 | h3 <;>
    exact ⟨by omega, by omega, by omega, by omega, by omega, by omega,
      fun h2 => by rw [hf4] at h2; exact Bool.noConfusion h2⟩

/-- C4 amended: the invariant remainingSeconds ∈ [0, max(work, break)]
holds in every state reachable from the initial state when operation times
are non-decreasing and settings-save happens only while the timer is not
running; a settings-save while running that shrinks the durations breaks
it, see the counterexample. -/
theorem timer_invariant_of_monotone_clock (s : TimerState) (t : Int) (h : ReachTM s t) :
    0 ≤ s.timeLeft ∧ s.timeLeft ≤ max s.workTime s.breakTime := by
  suffices hinv : timerInv s t by
    obtain ⟨_, _, _, _, h5, h6, _⟩ := hinv
    exact ⟨h5, h6⟩
  induction h with
  | init t =>
    exact ⟨by decide, by decide, by decide, by decide, by decide, by decide,
      fun h2 => absurd h2 (by decide)⟩
  | start s t t2 hs hle ih =>
    obtain ⟨hw1, hw2, hb1, hb2, hl1, hl2, hrn⟩ := ih
    by_cases hr : s.timerRunning = true
    · have hEq : startTimer s t2 = s := by simp [startTimer, hr]
      rw [hEq]
      obtain ⟨e, he, hbd⟩ := hrn hr
      exact ⟨hw1, hw2, hb1, hb2, hl1, hl2, fun _ => ⟨e, he, by omega⟩⟩
    · have hf : (startTimer s t2).workTime = s.workTime ∧
          (startTimer s t2).breakTime = s.breakTime ∧
          (startTimer s t2).timeLeft = s.timeLeft ∧
          (startTimer s t2).timerRunning = true ∧
          (startTimer s t2).timerEndTime = some (t2 + s.timeLeft * 1000) := by
        simp [startTimer, hr]
      obtain ⟨hf1, hf2, hf3, hf4, hf5⟩ := hf
      exact ⟨by omega, by omega, by omega, by omega, by omega, by omega,
        fun _ => ⟨t2 + s.timeLeft * 1000, hf5, by omega⟩⟩
  | pause s t t2 hs hle ih =>
    obtain ⟨hw1, hw2, hb1, hb2, hl1, hl2, hrn⟩ := ih
    have hf : (pauseTimer s).workTime = s.workTime ∧
        (pauseTimer s).breakTime = s.breakTime ∧
        (pauseTimer s).timeLeft = s.timeLeft ∧
        (pauseTimer s).timerRunning = false := by
      by_cases hr : s.timerRunning = true <;> simp [pauseTimer, hr]
    obtain ⟨hf1, hf2, hf3, hf4⟩ := hf
    exact ⟨by omega, by omega, by omega, by omega, by omega, by omega,
      fun h2 => by rw [hf4] at h2; exact Bool.noConfusion h2⟩
  | reset s t t2 hs hle ih =>
    obtain ⟨hw1, hw2, hb1, hb2, hl1, hl2, hrn⟩ := ih
    have hf : (resetTimer s).workTime = s.workTime ∧
        (resetTimer s).breakTime = s.breakTime ∧
        (resetTimer s).timeLeft = s.workTime ∧
        (resetTimer s).timerRunning = false := by
      by_cases hr : s.timerRunning = true <;> simp [resetTimer, pauseTimer, hr]
    obtain ⟨hf1, hf2, hf3, hf4⟩ := hf
    exact ⟨by omega, by omega, by omega, by omega, by omega, by omega,
      fun h2 => by rw [hf4] at h2; exact Bool.noConfusion h2⟩
  | complete s t t2 hs hle ih =>
    obtain ⟨hw1, hw2, hb1, hb2, hl1, hl2, hrn⟩ := ih
    exact timerInv_completeTimer s t2 hw1 hw2 hb1 hb2
  | tick s t t2 hs hle ih =>
    obtain ⟨hw1, hw2, hb1, hb2, hl1, hl2, hrn⟩ := ih
    by_cases hr : s.timerRunning = true
    · obtain ⟨e, he, hbd⟩ := hrn hr
      by_cases h0 : max 0 (roundMsToSec (e - t2)) ≤ 0
      · have hEq : tick s t2 = completeTimer s := by
          simp [tick, hr, he, h0]
        rw [hEq]
        exact timerInv_completeTimer s t2 hw1 hw2 hb1 hb2
      · have hrle : max 0 (roundMsToSec (e - t2)) ≤ max s.workTime s.breakTime := by
          have hb2e : e - t2 ≤ 1000 * max s.workTime s.breakTime := by omega
          simp only [roundMsToSec]
          omega
        by_cases hch : max 0 (roundMsToSec (e - t2)) = s.timeLeft
        · have h0c : ¬ s.timeLeft ≤ 0 := hch ▸ h0
          have hEq : tick s t2 = s := by
            simp [tick, hr, he, h0c, hch]
          rw [hEq]
          exact ⟨hw1, hw2, hb1, hb2, hl1, hl2, fun _ => ⟨e, he, by omega⟩⟩
        · have hf : (tick s t2).workTime = s.workTime ∧
              (tick s t2).breakTime = s.breakTime ∧
              (tick s t2).timeLeft = max 0 (roundMsToSec (e - t2)) ∧
              (tick s t2).timerRunning = true ∧
              (tick s t2).timerEndTime = some e := by
            simp [tick, hr, he, h0, hch]
          obtain ⟨hf1, hf2, hf3, hf4, hf5⟩ := hf
          exact ⟨by omega, by omega, by omega, by omega, by omega, by omega,
            fun _ => ⟨e, hf5, by omega⟩⟩
    · have hEq : tick s t2 = s := by simp [tick, hr]
      rw [hEq]
      exact ⟨hw1, hw2, hb1, hb2, hl1, hl2, fun h2 => absurd h2 hr⟩
  | save s t t2 w b hs hle hnr h1w h2w h1b h2b ih =>
    obtain ⟨hw1, hw2, hb1, hb2, hl1, hl2, hrn⟩ := ih
    have hf : (saveTimerSettingsInt s w b).workTime = w * 60 ∧
        (saveTimerSettingsInt s w b).breakTime = b * 60 ∧
        ((saveTimerSettingsInt s w b).timeLeft = w * 60 ∨
         (saveTimerSettingsInt s w b).timeLeft = b * 60) ∧
        (saveTimerSettingsInt s w b).timerRunning = false := by
      by_cases hsw : s.isWorkSession = true <;>
        simp [saveTimerSettingsInt, hnr, hsw]
    obtain ⟨hf1, hf2, hf3, hf4⟩ := hf
    rcases hf3 with h3 | h3 <;>
      exact ⟨by omega, by omega, by omega, by omega, by omega, by omega,
        fun h2 => by rw [hf4] at h2; exact Bool.noConfusion h2⟩

/-- Witness for C4's amended theorem: a concrete monotone trace (init at
time 0, start at 0, tick at 500) satisfies the range invariant. -/
theorem timer_invariant_of_monotone_clock_witness :
    0 ≤ (tick (startTimer initialTimerState 0) 500).timeLeft ∧
    (tick (startTimer initialTimerState 0) 500).timeLeft
      ≤ max (tick (startTimer initialTimerState 0) 500).workTime
            (tick (startTimer initialTimerState 0) 500).breakTime :=
  timer_invariant_of_monotone_clock _ 500
    (ReachTM.tick (startTimer initialTimerState 0) 0 500
      (ReachTM.start initialTimerState 0 0 (ReachTM.init 0) le_rfl) (by norm_num))
